import Mathlib

/-!
Verification of the RateGenius backend (`backend/server.js`) against its
natural-language specification.

The development shallowly embeds the server's core functions in Lean:

* numbers are modelled by `ℚ` (the spec-level exact semantics of the
  JavaScript arithmetic used here);
* `Date.now()` timestamps are explicit parameters (milliseconds);
* the in-memory `Map`s (cache, per-host throttle) are association lists,
  and every mutating function returns the updated map;
* external services (geocoder, places API, place-details API, the
  Playwright scrape) are modelled as explicit environment functions whose
  outcomes are inputs to the embedded handlers;
* `Number(x)` coercion of a JSON price field is modelled by
  `jsNumber : PriceVal → Option ℚ`, where `none` stands for `NaN`; a
  string price value is represented by the outcome of its coercion.
-/

namespace RateGenius

/-! ## Association-list model of a JavaScript `Map` -/

/-- lookup in a `Map` modelled as an association list (`Map.get`). -/
def mapFind {β : Type} (m : List (String × β)) (k : String) : Option β :=
  (m.find? (fun p => p.1 == k)).map (fun p => p.2)

/-- `Map.delete`: remove the binding for `k`. -/
def mapErase {β : Type} (m : List (String × β)) (k : String) : List (String × β) :=
  m.filter (fun p => !(p.1 == k))

/-- `Map.set`: overwrite the binding for `k`. -/
def mapSet {β : Type} (m : List (String × β)) (k : String) (v : β) : List (String × β) :=
  mapErase m k ++ [(k, v)]

/-! ## Cache (`setCache` / `getCache`)

The server keeps `const cache = new Map()` of entries `{ value, exp }` with
`exp = Date.now() + ttlSec*1000`; `getCache` returns `null` for a missing
key, evicts and returns `null` when `Date.now() > exp`, and otherwise
returns the stored value.  `Date.now()` is passed explicitly as `now`. -/

structure CacheEntry (α : Type) where
  value : α
  exp : ℕ
deriving DecidableEq

abbrev Cache (α : Type) : Type := List (String × CacheEntry α)

/-- embedding of `setCache(key, value, ttlSec)` run at time `now`. -/
def setCache {α : Type} (m : Cache α) (key : String) (value : α) (ttlSec : ℕ) (now : ℕ) :
    Cache α :=
  mapSet m key { value := value, exp := now + ttlSec * 1000 }

/-- embedding of `getCache(key)` run at time `now`: result and updated map. -/
def getCache {α : Type} (m : Cache α) (key : String) (now : ℕ) : Option α × Cache α :=
  match mapFind m key with
  | none => (none, m)
  | some v => if now > v.exp then (none, mapErase m key) else (some v.value, m)

/-! ## Aggregator: `median` -/

/-- model of `arr.slice().sort((a,b)=>a-b)`: the ascending sort of the list
(the numeric comparator makes `Array.prototype.sort` an ascending sort;
sortedness and permutation are proved below, so any correct sort is an
adequate model). -/
def jsSortAsc (l : List ℚ) : List ℚ :=
  List.insertionSort (· ≤ ·) l

/-- embedding of the server's `median(arr)`: `null` (here `none`) on the
empty list, otherwise the middle element of the ascending sort for odd
length and the mean of the two middle elements for even length. -/
def median (arr : List ℚ) : Option ℚ :=
  if arr.length = 0 then none
  else
    let s := jsSortAsc arr
    let m := s.length / 2
    if s.length % 2 = 1 then some (s.getD m 0)
    else some ((s.getD (m - 1) 0 + s.getD m 0) / 2)

/-! ## PolitenessThrottle (`politeWaitForHost`)

`hostLock` maps a host to the `Date.now()` timestamp recorded at the end of
the previous request to that host (`0` when absent).  A call entered at time
`now` sleeps `gap - (now - last)` ms when `now - last < gap` (gap = 2000),
so it completes at `last + gap`; otherwise it completes immediately at
`now`.  The completion time is then recorded.  Timestamps are `ℤ`
(milliseconds), and the function returns the completion time together with
the updated map. -/

abbrev HostMap : Type := List (String × ℤ)

/-- embedding of `politeWaitForHost(host)` entered at time `now`. -/
def politeWaitForHost (st : HostMap) (host : String) (now : ℤ) : ℤ × HostMap :=
  let last := (mapFind st host).getD 0
  let gap : ℤ := 2000
  let done := if now - last < gap then now + (gap - (now - last)) else now
  (done, mapSet st host done)

/-! ## Aggregator: `suggest` (POST /api/suggest)

The handler reads `competitors` from the body (possibly absent), maps each
record's `price` field through `Number(...)`, drops `NaN`s, and takes the
median; `median === null` yields a 400 response, otherwise the recommended
price is `Math.round((med * (1 - 0.06)) * 100) / 100` with confidence 0.6.

A JSON price field is modelled by `PriceVal`; a string is represented by
the result of its `Number(...)` coercion (`strNum q` for text that coerces
to the number `q`, `strNaN` for text that coerces to `NaN`).  Note that
`Number(null) = 0` and `Number(undefined) = NaN` in JavaScript. -/

inductive PriceVal where
  | undef
  | null
  | num (q : ℚ)
  | nan
  | strNum (q : ℚ)
  | strNaN
deriving DecidableEq

/-- model of the JavaScript `Number(x)` coercion of a price field, with
`none` standing for `NaN`. -/
def jsNumber : PriceVal → Option ℚ
  | .undef => none
  | .null => some 0
  | .num q => some q
  | .nan => none
  | .strNum q => some q
  | .strNaN => none

structure SuggestCompetitor where
  price : PriceVal
deriving DecidableEq

structure Suggestion where
  recommendedPrice : ℚ
  rationale : String
  confidence : ℚ

/-- model of `Math.round`: round half toward positive infinity. -/
def mathRound (x : ℚ) : ℤ :=
  Rat.floor (x + 1 / 2)

/-- rounding to 2 decimal places as the server does it:
`Math.round(x * 100) / 100`. -/
def round2 (x : ℚ) : ℚ :=
  (mathRound (x * 100) : ℚ) / 100

/-- the fixed undercut factor `alpha = 0.06`. -/
def alpha : ℚ := 6 / 100

/-- `(competitors||[]).map(c => Number(c.price)).filter(p => !Number.isNaN(p))`. -/
def numericPrices (competitors : Option (List SuggestCompetitor)) : List ℚ :=
  (competitors.getD []).filterMap (fun c => jsNumber c.price)

/-- embedding of the `/api/suggest` handler body; an `Except.error` is the
HTTP failure response `(status, message)`. -/
def suggest (competitors : Option (List SuggestCompetitor)) :
    Except (ℕ × String) Suggestion :=
  let prices := numericPrices competitors
  match median prices with
  | none => .error (400, "no competitor prices available")
  | some med =>
      .ok { recommendedPrice := (mathRound ((med * (1 - alpha)) * 100) : ℚ) / 100
            rationale := "Median competitor price is $" ++ toString med ++
              ". Undercutting by " ++ toString (alpha * 100) ++ "%"
            confidence := 3 / 5 }

/-! ## PageScraper extraction heuristics

`scrapeSiteForPrice` retrieves the rendered page text and applies two
regex heuristics:

* price: all matches of `\$\s?([0-9]\x7b1,3\x7d(?:,[0-9]\x7b3\x7d)?(?:\.[0-9]\x7b1,2\x7d)?)`,
  the first match's capture stripped of commas and coerced with `Number`;
* unit: the first match of `(\d\x7b1,2\x7d\s?x\s?\d\x7b1,2\x7d)` (case-insensitive),
  with all whitespace removed from the captured text.

The two patterns are embedded directly as scanning functions over
`List Char` that return the leftmost match, mirroring the leftmost-first,
greedy-with-backtracking semantics of the JavaScript regex engine on these
patterns.  `\s` is modelled by the common whitespace characters. -/

/-- whitespace class used by the embedded patterns (model of `\s`). -/
def isSpaceCh (c : Char) : Bool :=
  c == ' ' || c == '\t' || c == '\n' || c == '\r'

/-- consume at most `n` leading decimal digits, greedily. -/
def takeUpToDigits : ℕ → List Char → List Char × List Char
  | 0, cs => ([], cs)
  | _ + 1, [] => ([], [])
  | n + 1, c :: cs =>
      if c.isDigit then
        let r := takeUpToDigits n cs
        (c :: r.1, r.2)
      else ([], c :: cs)

/-- numeric value of a digit string. -/
def digitsToNat (ds : List Char) : ℕ :=
  ds.foldl (fun a c => 10 * a + (c.toNat - 48)) 0

/-- value of a decimal token with integer part `ip`, fraction digits value
`fp` and `fl` fraction digits — the `Number(...)` coercion of the captured
text. -/
def decimalValue (ip fp fl : ℕ) : ℚ :=
  Rat.divInt (ip * 10 ^ fl + fp) (10 ^ fl)

/-- match the amount part `[0-9]\x7b1,3\x7d(?:,[0-9]\x7b3\x7d)?(?:\.[0-9]\x7b1,2\x7d)?`
at the head of the text and return the `Number` value of the capture with
commas removed. -/
def amountAt (cs : List Char) : Option ℚ :=
  let p1 := takeUpToDigits 3 cs
  if p1.1.isEmpty then none
  else
    let intPart :=
      match p1.2 with
      | ',' :: t =>
          let p2 := takeUpToDigits 3 t
          if p2.1.length = 3 then (p1.1 ++ p2.1, p2.2) else (p1.1, p1.2)
      | _ => (p1.1, p1.2)
    let fracPart :=
      match intPart.2 with
      | '.' :: t =>
          let p3 := takeUpToDigits 2 t
          if p3.1.isEmpty then [] else p3.1
      | _ => []
    some (decimalValue (digitsToNat intPart.1) (digitsToNat fracPart) fracPart.length)

/-- match the price pattern at the head of the text: `$`, an optional
single whitespace (taken only when a digit follows, as regex backtracking
does), then the amount. -/
def priceAt : List Char → Option ℚ
  | '$' :: rest =>
      match rest with
      | c :: d :: t =>
          if isSpaceCh c && d.isDigit then amountAt (d :: t) else amountAt (c :: d :: t)
      | _ => amountAt rest
  | _ => none

/-- match `\s?[xX]\s?\d\x7b1,2\x7d` at the head of the text, returning the
matched characters.  An optional whitespace is committed only when the
following mandatory atom succeeds, as regex backtracking does. -/
def unitTailAt (cs : List Char) : Option (List Char) :=
  let s1 :=
    match cs with
    | c :: t => if isSpaceCh c then ([c], t) else ([], c :: t)
    | [] => (([] : List Char), ([] : List Char))
  match s1.2 with
  | x :: t =>
      if x == 'x' || x == 'X' then
        let s2 :=
          match t with
          | c :: t2 => if isSpaceCh c then ([c], t2) else ([], c :: t2)
          | [] => (([] : List Char), ([] : List Char))
        let ds := takeUpToDigits 2 s2.2
        if ds.1.isEmpty then none
        else some (s1.1 ++ x :: s2.1 ++ ds.1)
      else none
  | [] => none

/-- match the unit pattern `(\d\x7b1,2\x7d\s?x\s?\d\x7b1,2\x7d)` at the head of the
text, returning the matched characters.  The leading `\d\x7b1,2\x7d` is greedy
with backtracking: two digits are tried first, then one. -/
def unitAt : List Char → Option (List Char)
  | c :: t =>
      if c.isDigit then
        match t with
        | d :: t2 =>
            if d.isDigit then
              match unitTailAt t2 with
              | some tail => some (c :: d :: tail)
              | none =>
                  match unitTailAt (d :: t2) with
                  | some tail => some (c :: tail)
                  | none => none
            else
              match unitTailAt (d :: t2) with
              | some tail => some (c :: tail)
              | none => none
        | [] => none
      else none
  | [] => none

/-- leftmost match: try the matcher at every start position, in document
order. -/
def findFirst {α : Type} (f : List Char → Option α) : List Char → Option α
  | [] => f []
  | c :: t =>
      match f (c :: t) with
      | some v => some v
      | none => findFirst f t

/-- the first `$`-amount on the page, as `priceMatches[0]`. -/
def extractPrice (content : List Char) : Option ℚ :=
  findFirst priceAt content

/-- strip every whitespace character, as `.replace(/\s+/g,'')`. -/
def stripSpaces (l : List Char) : List Char :=
  l.filter (fun c => !(isSpaceCh c))

/-- the first `NxM` token on the page with internal whitespace removed. -/
def extractUnit (content : List Char) : Option String :=
  (findFirst unitAt content).map (fun l => String.mk (stripSpaces l))

structure ScrapeResult where
  price : Option ℚ
  unit : Option String
  source : String
deriving DecidableEq

/-- the pure extraction step of `scrapeSiteForPrice`, applied to the
rendered page content. -/
def scrapeExtract (content : List Char) (url : String) : ScrapeResult :=
  { price := extractPrice content, unit := extractUnit content, source := url }

/-! ## LocationResolver (the address branch of `placesNearby`)

`placesNearby` accepts either a strict `lat,lng` string (regex
`^-?\d+\.\d+,-?\d+\.\d+$`) parsed directly with no external call, or a
free-form address that is geocoded with one external request;
`if(!geoRes.results || !geoRes.results.length) throw new Error('geocode failed')`.
The geocoder is an environment function returning `none` for a response
with no `results` field and `some l` for one with results array `l`. -/

/-- consume `-?\d+\.\d+` from the head of the text, returning the rest. -/
def numPartAt (cs : List Char) : Option (List Char) :=
  let cs1 := match cs with
    | '-' :: t => t
    | _ => cs
  let p1 := cs1.span Char.isDigit
  if p1.1.isEmpty then none
  else
    match p1.2 with
    | '.' :: t =>
        let p2 := t.span Char.isDigit
        if p2.1.isEmpty then none else some p2.2
    | _ => none

/-- decision of the anchored coordinate regex `^-?\d+\.\d+,-?\d+\.\d+$`. -/
def isLatLngStr (s : String) : Bool :=
  match numPartAt s.data with
  | some (',' :: r) =>
      match numPartAt r with
      | some [] => true
      | _ => false
  | _ => false

/-- `Number(...)` on a string of the shape `-?\d+\.\d+` (the only shape fed
to it on the direct-parse path); other inputs are irrelevant here and map
to 0. -/
def parseDecChars (cs : List Char) : ℚ :=
  let sgn := match cs with
    | '-' :: t => (true, t)
    | _ => (false, cs)
  let p1 := sgn.2.span Char.isDigit
  match p1.2 with
  | '.' :: t =>
      let p2 := t.span Char.isDigit
      let v := decimalValue (digitsToNat p1.1) (digitsToNat p2.1) p2.1.length
      if sgn.1 then -v else v
  | _ =>
      if sgn.1 then -(digitsToNat p1.1 : ℚ) else (digitsToNat p1.1 : ℚ)

/-- `latlng.split(',').map(Number)` destructured to `[lat, lng]`. -/
def parseLatLngStr (s : String) : ℚ × ℚ :=
  match s.splitOn "," with
  | a :: b :: _ => (parseDecChars a.data, parseDecChars b.data)
  | _ => (0, 0)

/-- geocoding environment: the provider's response to one geocode request,
`none` when the response carries no `results` field. -/
structure GeoEnv where
  geocode : String → Option (List (ℚ × ℚ))

/-- number of results the provider returned (a missing `results` field
carries zero results). -/
def numResults : Option (List (ℚ × ℚ)) → ℕ
  | none => 0
  | some l => l.length

/-- embedding of the location-resolution step of `placesNearby`: the
resolved coordinate (or the thrown error) together with the number of
external geocoding requests issued. -/
def resolveLatLng (genv : GeoEnv) (addr : String) : Except String (ℚ × ℚ) × ℕ :=
  if isLatLngStr addr then (.ok (parseLatLngStr addr), 0)
  else
    match genv.geocode addr with
    | none => (.error "geocode failed", 1)
    | some [] => (.error "geocode failed", 1)
    | some (c :: _) => (.ok c, 1)

/-! ## The /api/scan candidate loop

For each of the first 20 candidates the handler resolves details, scrapes
the website when one is present (catching a scrape failure per candidate),
and pushes one result record; a details failure is caught per candidate and
pushed as a bare `{name, address, error}` record.  The external calls are
modelled by an environment of outcome functions (the cache layers inside
`placeDetails`/`scrapeSiteForPrice` only make these outcomes stable per
key, which the functional environment already guarantees). -/

structure Place where
  place_id : String
  name : String
  address : String
deriving DecidableEq

structure PlaceDetail where
  website : Option String
  formatted_address : Option String
deriving DecidableEq

/-- outcome of `placeDetails(placeId)`: a resolved detail record, `none`
when the provider has no record, or a thrown error. -/
inductive DetailOutcome where
  | ok (d : Option PlaceDetail)
  | err (msg : String)
deriving DecidableEq

/-- outcome of `scrapeSiteForPrice(url)`: a scrape result, or the
`ScrapeError` thrown after retries are exhausted. -/
inductive ScrapeOutcome where
  | ok (r : ScrapeResult)
  | err (msg : String)
deriving DecidableEq

structure ScanEnv where
  details : String → DetailOutcome
  scrape : String → ScrapeOutcome

/-- the `scraped` local of the candidate loop: `null`, a scrape result, or
the `{ error: 'scrape failed' }` object built in the per-candidate catch. -/
inductive Scraped where
  | result (r : ScrapeResult)
  | failed (error : String)
deriving DecidableEq

/-- one merged competitor row as pushed by the loop; absent JSON fields are
`none`. -/
structure CompetitorRecord where
  name : String
  address : String
  place_id : Option String
  website : Option String
  distance : Option ℚ
  unit : Option String
  price : Option ℚ
  source : Option String
  availability : Option String
  error : Option String
deriving DecidableEq

/-- one iteration of the candidate loop: the record pushed for candidate
`p`.  Note the catch around the scrape builds `{ error: 'scrape failed' }`
but the pushed record reads only `scraped.unit` / `scraped.price` /
`scraped.availability`, which are all undefined on that object, and the
push includes no `error` key on this path. -/
def processCandidate (env : ScanEnv) (p : Place) : CompetitorRecord :=
  match env.details p.place_id with
  | .err msg =>
      { name := p.name, address := p.address, place_id := none, website := none,
        distance := none, unit := none, price := none, source := none,
        availability := none, error := some msg }
  | .ok details =>
      let website := details.bind (fun d => d.website)
      let scraped : Option Scraped :=
        website.map (fun w =>
          match env.scrape w with
          | .ok r => Scraped.result r
          | .err _ => Scraped.failed "scrape failed")
      { name := p.name
        address := (details.bind (fun d => d.formatted_address)).getD p.address
        place_id := some p.place_id
        website := website
        distance := none
        unit := match scraped with
          | some (Scraped.result r) => r.unit
          | _ => none
        price := match scraped with
          | some (Scraped.result r) => r.price
          | _ => none
        source := some (if website.isSome then "website" else "places")
        availability := none
        error := none }

/-- the `results` accumulation of `for(const p of places.slice(0, 20))`. -/
def scanLoop (env : ScanEnv) : List Place → List CompetitorRecord → List CompetitorRecord
  | [], acc => acc
  | p :: ps, acc => scanLoop env ps (acc ++ [processCandidate env p])

/-- the competitor list computed by the `/api/scan` handler from the
candidate list. -/
def scanHandler (env : ScanEnv) (places : List Place) : List CompetitorRecord :=
  scanLoop env (places.take 20) []

/-- the whole `/api/scan` request: missing address is a 400; a throw from
`placesNearby` (geocode failure or malformed nearby-search response) is
caught at the top level and returned as a 500 with the error message; on
success the response carries the competitor list. -/
def scanRequest (genv : GeoEnv) (env : ScanEnv)
    (nearby : ℚ × ℚ → Except String (List Place)) (address : Option String) :
    Except (ℕ × String) (List CompetitorRecord) :=
  match address with
  | none => .error (400, "address required")
  | some addr =>
      match (resolveLatLng genv addr).1 with
      | .error e => .error (500, e)
      | .ok c =>
          match nearby c with
          | .error e => .error (500, e)
          | .ok places => .ok (scanHandler env places)

/-! ## Array-identity model of `median` for its frame effect

To state that `median` leaves the caller's array unchanged, JavaScript
arrays are given identities: a heap is a list of array values, a reference
is an index.  `arr.slice()` allocates a fresh copy at a fresh reference and
`sort` mutates in place the array behind the reference it is called on.
`medianProg` is `median` replayed against this heap. -/

abbrev Heap : Type := List (List ℚ)

def heapGet (h : Heap) (r : ℕ) : List ℚ :=
  h.getD r []

/-- `arr.slice()`: allocate a copy, return the new heap and the fresh
reference. -/
def jsSlice (h : Heap) (r : ℕ) : Heap × ℕ :=
  (h ++ [heapGet h r], h.length)

/-- `a.sort((a,b)=>a-b)`: in-place ascending sort of the array behind
reference `r`. -/
def jsSortInPlace (h : Heap) (r : ℕ) : Heap :=
  h.set r (jsSortAsc (heapGet h r))

/-- the body of `median(arr)` replayed on the heap: the returned value and
the final heap. -/
def medianProg (h : Heap) (r : ℕ) : Option ℚ × Heap :=
  if (heapGet h r).length = 0 then (none, h)
  else
    let sl := jsSlice h r
    let h1 := jsSortInPlace sl.1 sl.2
    let s := heapGet h1 sl.2
    let m := s.length / 2
    (if s.length % 2 = 1 then some (s.getD m 0)
     else some ((s.getD (m - 1) 0 + s.getD m 0) / 2), h1)

/-! ## Concrete demonstration data

Two candidates, both with a website; the scrape of the first succeeds with
price 100 and unit "10x10", the scrape of the second exhausts its retries
and throws.  Used to evaluate the embedded handlers at concrete inputs. -/

def placeA : Place :=
  { place_id := "pidA", name := "A Storage", address := "1 A St" }

def placeB : Place :=
  { place_id := "pidB", name := "B Storage", address := "2 B St" }

def scrapeFailEnv : ScanEnv :=
  { details := fun pid =>
      if pid = "pidA" then
        .ok (some { website := some "http://a.example", formatted_address := none })
      else if pid = "pidB" then
        .ok (some { website := some "http://b.example", formatted_address := none })
      else .ok none
    scrape := fun url =>
      if url = "http://a.example" then
        .ok { price := some 100, unit := some "10x10", source := "http://a.example" }
      else .err "net::ERR_TIMED_OUT" }

/-- geocoder stub: one known address with a single result, every other
address yields a response with no results. -/
def demoGeoEnv : GeoEnv :=
  { geocode := fun addr =>
      if addr = "10 Main St" then some [(35, 90)] else some [] }

def demoNearby : ℚ × ℚ → Except String (List Place) :=
  fun _ => .ok [placeA]

/-! ## Helper lemmas -/

theorem find?_mapErase_self {β : Type} (m : List (String × β)) (k : String) :
    List.find? (fun p => p.1 == k) (mapErase m k) = none := by
  rw [List.find?_eq_none]
  intro p hp
  have h := (List.mem_filter.mp hp).2
  simpa using h

theorem mapFind_mapErase_self {β : Type} (m : List (String × β)) (k : String) :
    mapFind (mapErase m k) k = none := by
  unfold mapFind
  rw [find?_mapErase_self]
  rfl

theorem mapFind_mapSet_self {β : Type} (m : List (String × β)) (k : String) (v : β) :
    mapFind (mapSet m k v) k = some v := by
  unfold mapSet mapFind
  rw [List.find?_append, find?_mapErase_self]
  simp [List.find?]

theorem find?_mapErase_ne {β : Type} (m : List (String × β)) (k k' : String)
    (hne : k' ≠ k) :
    List.find? (fun p => p.1 == k') (mapErase m k) =
      List.find? (fun p => p.1 == k') m := by
  unfold mapErase
  induction m with
  | nil => rfl
  | cons p t ih =>
    by_cases h : p.1 = k
    · have hk' : (k == k') = false := by
        simp only [beq_eq_false_iff_ne, ne_eq]
        exact fun hc => hne hc.symm
      have hpk' : (p.1 == k') = false := by rw [h]; exact hk'
      simp [List.filter_cons, h, List.find?_cons, hpk', hk', ih]
    · have hk : (p.1 == k) = false := by simpa using h
      cases hpk' : (p.1 == k') with
      | true => simp [List.filter_cons, hk, List.find?_cons, hpk']
      | false => simp [List.filter_cons, hk, List.find?_cons, hpk', ih]

theorem mapFind_mapSet_ne {β : Type} (m : List (String × β)) (k k' : String) (v : β)
    (hne : k' ≠ k) : mapFind (mapSet m k v) k' = mapFind m k' := by
  unfold mapSet mapFind
  rw [List.find?_append, find?_mapErase_ne m k k' hne]
  have hkk' : (k == k') = false := by
    simp only [beq_eq_false_iff_ne, ne_eq]
    exact fun hc => hne hc.symm
  cases hfind : List.find? (fun p => p.1 == k') m with
  | none => simp [List.find?, hkk']
  | some w => simp [Option.or]

theorem jsSortAsc_perm (l : List ℚ) : (jsSortAsc l).Perm l :=
  List.perm_insertionSort _ l

theorem jsSortAsc_sorted (l : List ℚ) : (jsSortAsc l).Sorted (· ≤ ·) :=
  List.sorted_insertionSort _ l

theorem jsSortAsc_length (l : List ℚ) : (jsSortAsc l).length = l.length :=
  (jsSortAsc_perm l).length_eq

theorem median_eq_none_iff (arr : List ℚ) : median arr = none ↔ arr = [] := by
  unfold median
  constructor
  · intro h
    by_cases hl : arr.length = 0
    · exact List.length_eq_zero.mp hl
    · simp only [hl, if_false] at h
      split at h <;> simp_all
  · intro h; subst h; rfl

theorem getCache_of_find_some {α : Type} (m : Cache α) (k : String) (t : ℕ)
    (e : CacheEntry α) (hf : mapFind m k = some e) :
    getCache m k t = if t > e.exp then (none, mapErase m k) else (some e.value, m) := by
  unfold getCache
  rw [hf]

/-- helper for the second call of the throttle: from any state that records
`d1` for the host, a call entered at `now2 ≥ d1` completes at least 2000 ms
after `d1`. -/
theorem politeWaitForHost_gap (st1 : HostMap) (h : String) (d1 now2 : ℤ)
    (hl : mapFind st1 h = some d1) (hseq : d1 ≤ now2) :
    2000 ≤ (politeWaitForHost st1 h now2).1 - d1 := by
  unfold politeWaitForHost
  rw [hl]
  simp only [Option.getD_some]
  split <;> omega

/-- C5: after `setCache(k, v, ttl)` at time `t0`, a `getCache(k)` at any time
`t` at most `ttl` seconds later returns `v`; at any `t` more than `ttl`
seconds later it returns absence and evicts the entry (the key no longer
occurs in the store); and in general a stored entry is never returned past
its expiry. -/
theorem cache_ttl_spec {α : Type} (m : Cache α) (k : String) (v : α)
    (ttl t0 t : ℕ) :
    (t ≤ t0 + ttl * 1000 →
      (getCache (setCache m k v ttl t0) k t).1 = some v)
    ∧ (t > t0 + ttl * 1000 →
      (getCache (setCache m k v ttl t0) k t).1 = none
      ∧ mapFind (getCache (setCache m k v ttl t0) k t).2 k = none)
    ∧ (∀ e : CacheEntry α, mapFind m k = some e → t > e.exp →
        (getCache m k t).1 = none) := by
  have hset : mapFind (setCache m k v ttl t0) k
      = some { value := v, exp := t0 + ttl * 1000 } :=
    mapFind_mapSet_self m k _
  refine ⟨?_, ?_, ?_⟩
  · intro hle
    rw [getCache_of_find_some _ _ _ _ hset, if_neg (show ¬ t > t0 + ttl * 1000 by omega)]
  · intro hgt
    rw [getCache_of_find_some _ _ _ _ hset, if_pos (show t > t0 + ttl * 1000 from hgt)]
    exact ⟨rfl, mapFind_mapErase_self _ k⟩
  · intro e hf hexp
    rw [getCache_of_find_some _ _ _ _ hf, if_pos hexp]

/-- C5 witness: on an initially empty cache, `set("k", 7, ttl 1s)` at time
1000 is returned by a get at 1900 and is gone (value and key) at 2001. -/
theorem cache_ttl_spec_witness :
    (getCache (setCache ([] : Cache ℕ) "k" 7 1 1000) "k" 1900).1 = some 7
    ∧ (getCache (setCache ([] : Cache ℕ) "k" 7 1 1000) "k" 2001).1 = none
    ∧ mapFind (getCache (setCache ([] : Cache ℕ) "k" 7 1 1000) "k" 2001).2 "k" = none :=
  ⟨(cache_ttl_spec [] "k" 7 1 1000 1900).1 (by decide),
   ((cache_ttl_spec [] "k" 7 1 1000 2001).2.1 (by decide)).1,
   ((cache_ttl_spec [] "k" 7 1 1000 2001).2.1 (by decide)).2⟩

/-- C9: when a second `politeWaitForHost` call for the same host is entered
after the first one completed, its completion is at least 2000 ms after the
first completion; and a call for one host neither changes the recorded
timestamp of another host nor the completion time of a subsequent call for
another host. -/
theorem politeness_spec (st : HostMap) (h : String) (now1 now2 : ℤ)
    (hseq : (politeWaitForHost st h now1).1 ≤ now2) :
    2000 ≤ (politeWaitForHost (politeWaitForHost st h now1).2 h now2).1
            - (politeWaitForHost st h now1).1
    ∧ (∀ h2 : String, h2 ≠ h →
        mapFind (politeWaitForHost st h now1).2 h2 = mapFind st h2)
    ∧ (∀ (h2 : String) (now : ℤ), h2 ≠ h →
        (politeWaitForHost (politeWaitForHost st h now1).2 h2 now).1
          = (politeWaitForHost st h2 now).1) := by
  refine ⟨?_, ?_, ?_⟩
  · refine politeWaitForHost_gap _ h _ now2 ?_ hseq
    unfold politeWaitForHost
    exact mapFind_mapSet_self st h _
  · intro h2 hne
    exact mapFind_mapSet_ne st h h2 _ hne
  · intro h2 now hne
    unfold politeWaitForHost
    rw [mapFind_mapSet_ne st h h2 _ hne]

/-- C9 witness: host "example.com", first call at t = 10000 on an empty
state, second call entered at its completion time; an unrelated host
"other.com" is unaffected. -/
theorem politeness_spec_witness :
    2000 ≤ (politeWaitForHost (politeWaitForHost [] "example.com" 10000).2
              "example.com" 10000).1
            - (politeWaitForHost [] "example.com" 10000).1
    ∧ (politeWaitForHost (politeWaitForHost [] "example.com" 10000).2
        "other.com" 10500).1
        = (politeWaitForHost [] "other.com" 10500).1 :=
  ⟨(politeness_spec [] "example.com" 10000 10000 (by decide)).1,
   (politeness_spec [] "example.com" 10000 10000 (by decide)).2.2
     "other.com" 10500 (by decide)⟩

theorem suggest_of_numericPrices_nil (cs : Option (List SuggestCompetitor))
    (h : numericPrices cs = []) :
    suggest cs = .error (400, "no competitor prices available") := by
  simp only [suggest]
  rw [show median (numericPrices cs) = none from (median_eq_none_iff _).mpr h]

theorem suggest_of_numericPrices_ne_nil (cs : Option (List SuggestCompetitor))
    (h : numericPrices cs ≠ []) :
    ∃ m r, median (numericPrices cs) = some m ∧ suggest cs = Except.ok r
      ∧ r.recommendedPrice = round2 (m * (1 - alpha)) ∧ r.confidence = 3 / 5 := by
  cases hmed : median (numericPrices cs) with
  | none => exact absurd ((median_eq_none_iff _).mp hmed) h
  | some med =>
      refine ⟨med,
        { recommendedPrice := (mathRound ((med * (1 - alpha)) * 100) : ℚ) / 100
          rationale := "Median competitor price is $" ++ toString med ++
            ". Undercutting by " ++ toString (alpha * 100) ++ "%"
          confidence := 3 / 5 }, rfl, ?_, rfl, rfl⟩
      simp only [suggest]
      rw [hmed]

/-- value of the recommended price at median 110: `round2` applied to
`110 * (1 - alpha)` is 103.4. -/
theorem round2_at_110 : round2 (110 * (1 - alpha)) = 1034 / 10 := by
  have harg : (110 * (1 - alpha)) * 100 + 1 / 2 = Rat.divInt 20681 2 := by
    rw [Rat.divInt_eq_div]; norm_num [alpha]
  unfold round2 mathRound
  rw [harg]
  rw [show Rat.floor (Rat.divInt 20681 2) = 10340 from by decide]
  norm_num

/-- C1 counterexample: a competitor list whose only price field is `null`
— so that, in the claim's words, every price field is absent, null or
non-numeric text — does not make `suggest` fail: `Number(null)` is `0`, the
filtered list is `[0]`, and the handler answers with recommended price 0. -/
theorem suggest_null_price_succeeds :
    ∃ r, suggest (some [{ price := PriceVal.null }]) = Except.ok r
      ∧ r.recommendedPrice = 0 := by
  have h : numericPrices (some [{ price := PriceVal.null }]) ≠ [] := by decide
  obtain ⟨m, r, hmed, hok, hrec, -⟩ := suggest_of_numericPrices_ne_nil _ h
  have hm : m = 0 := by
    have : median (numericPrices (some [{ price := PriceVal.null }])) = some 0 := by decide
    rw [this] at hmed
    exact (Option.some_inj.mp hmed).symm
  subst hm
  refine ⟨r, hok, ?_⟩
  rw [hrec]
  have harg : (0 * (1 - alpha)) * 100 + 1 / 2 = Rat.divInt 1 2 := by
    rw [Rat.divInt_eq_div]; norm_num
  unfold round2 mathRound
  rw [harg, show Rat.floor (Rat.divInt 1 2) = 0 from by decide]
  norm_num

/-- C1 (amended): `suggest` fails with the insufficient-data 400 error
exactly on lists none of whose price fields coerces to a number under
`Number(...)` (absent/undefined, `NaN`, or non-numeric text — but not
`null`, which coerces to 0 and counts as a valid price); a list with at
least one price that coerces to a number never fails. -/
theorem suggest_insufficient_data (cs : Option (List SuggestCompetitor)) :
    ((∀ c ∈ cs.getD [], jsNumber c.price = none) →
      suggest cs = .error (400, "no competitor prices available"))
    ∧ ((∃ c ∈ cs.getD [], jsNumber c.price ≠ none) →
      ∃ r, suggest cs = Except.ok r) := by
  constructor
  · intro hall
    exact suggest_of_numericPrices_nil cs (List.filterMap_eq_nil.mpr hall)
  · rintro ⟨c, hc, hne⟩
    have h : numericPrices cs ≠ [] := by
      intro hnil
      exact hne (List.filterMap_eq_nil.mp hnil c hc)
    obtain ⟨m, r, -, hok, -, -⟩ := suggest_of_numericPrices_ne_nil cs h
    exact ⟨r, hok⟩

/-- C1 witness: an empty body fails with the 400 error, and a list with
the single numeric price 100 succeeds. -/
theorem suggest_insufficient_data_witness :
    suggest none = .error (400, "no competitor prices available")
    ∧ ∃ r, suggest (some [{ price := PriceVal.num 100 }]) = Except.ok r :=
  ⟨(suggest_insufficient_data none).1 (by decide),
   (suggest_insufficient_data (some [{ price := PriceVal.num 100 }])).2
     ⟨{ price := PriceVal.num 100 }, by decide, by decide⟩⟩

/-- C4: whenever at least one price survives the numeric filter, `suggest`
answers with the median `m` of the filtered prices rounded as
`round2 (m * (1 - alpha))` and fixed confidence 0.6; in particular for
prices 100, 120, 110 the median is 110 and the recommendation is 103.4. -/
theorem suggest_median_undercut (cs : Option (List SuggestCompetitor))
    (h : numericPrices cs ≠ []) :
    (∃ m r, median (numericPrices cs) = some m ∧ suggest cs = Except.ok r
      ∧ r.recommendedPrice = round2 (m * (1 - alpha)) ∧ r.confidence = 3 / 5)
    ∧ median [(100 : ℚ), 120, 110] = some 110
    ∧ round2 (110 * (1 - alpha)) = 1034 / 10
    ∧ (∃ r, suggest (some [{ price := PriceVal.num 100 },
          { price := PriceVal.num 120 }, { price := PriceVal.num 110 }])
        = Except.ok r ∧ r.recommendedPrice = 1034 / 10 ∧ r.confidence = 3 / 5) := by
  refine ⟨suggest_of_numericPrices_ne_nil cs h, by decide, round2_at_110, ?_⟩
  have h3 : numericPrices (some [{ price := PriceVal.num 100 },
      { price := PriceVal.num 120 }, { price := PriceVal.num 110 }]) ≠ [] := by decide
  obtain ⟨m, r, hmed, hok, hrec, hconf⟩ := suggest_of_numericPrices_ne_nil _ h3
  have hm : m = 110 := by
    have : median (numericPrices (some [{ price := PriceVal.num 100 },
        { price := PriceVal.num 120 }, { price := PriceVal.num 110 }]))
        = some 110 := by decide
    rw [this] at hmed
    exact (Option.some_inj.mp hmed).symm
  subst hm
  exact ⟨r, hok, by rw [hrec]; exact round2_at_110, hconf⟩

/-- C4 witness: instantiation at the competitor list with prices 100, 120,
110. -/
theorem suggest_median_undercut_witness :
    (∃ m r, median (numericPrices (some [{ price := PriceVal.num 100 },
        { price := PriceVal.num 120 }, { price := PriceVal.num 110 }])) = some m
      ∧ suggest (some [{ price := PriceVal.num 100 },
          { price := PriceVal.num 120 }, { price := PriceVal.num 110 }]) = Except.ok r
      ∧ r.recommendedPrice = round2 (m * (1 - alpha)) ∧ r.confidence = 3 / 5)
    ∧ median [(100 : ℚ), 120, 110] = some 110 :=
  ⟨(suggest_median_undercut (some [{ price := PriceVal.num 100 },
      { price := PriceVal.num 120 }, { price := PriceVal.num 110 }]) (by decide)).1,
   (suggest_median_undercut (some [{ price := PriceVal.num 100 },
      { price := PriceVal.num 120 }, { price := PriceVal.num 110 }]) (by decide)).2.1⟩

/-- C3: the five spec examples of `median`, and, for every non-empty list,
`median` sorts ascending and returns the middle element for odd count and
the arithmetic mean of the two middle elements for even count (the sorted
rearrangement is exhibited as a sorted permutation of the input). -/
theorem median_claims (l : List ℚ) (hl : l ≠ []) :
    median ([] : List ℚ) = none
    ∧ median [(5 : ℚ)] = some 5
    ∧ median [(1 : ℚ), 3] = some 2
    ∧ median [(1 : ℚ), 2, 3] = some 2
    ∧ median [(1 : ℚ), 2, 3, 4] = some (5 / 2)
    ∧ ∃ s : List ℚ, s.Perm l ∧ s.Sorted (· ≤ ·) ∧
        median l = some (if l.length % 2 = 1 then s.getD (l.length / 2) 0
          else (s.getD (l.length / 2 - 1) 0 + s.getD (l.length / 2) 0) / 2) := by
  refine ⟨rfl, by decide, ?_, by decide, ?_, ?_⟩
  · have hs : jsSortAsc [(1 : ℚ), 3] = [1, 3] := by decide
    simp only [median, hs]
    norm_num
  · have hs : jsSortAsc [(1 : ℚ), 2, 3, 4] = [1, 2, 3, 4] := by decide
    simp only [median, hs]
    norm_num
  · refine ⟨jsSortAsc l, jsSortAsc_perm l, jsSortAsc_sorted l, ?_⟩
    have hlen : ¬ l.length = 0 := fun hz => hl (List.length_eq_zero.mp hz)
    simp only [median, if_neg hlen, jsSortAsc_length]
    rw [apply_ite some]

/-- C3 witness: instantiation at the list `[1, 2, 3, 4]`. -/
theorem median_claims_witness :
    median ([] : List ℚ) = none
    ∧ median [(5 : ℚ)] = some 5
    ∧ median [(1 : ℚ), 3] = some 2
    ∧ median [(1 : ℚ), 2, 3] = some 2
    ∧ median [(1 : ℚ), 2, 3, 4] = some (5 / 2)
    ∧ ∃ s : List ℚ, s.Perm [(1 : ℚ), 2, 3, 4] ∧ s.Sorted (· ≤ ·) ∧
        median [(1 : ℚ), 2, 3, 4]
          = some (if ([(1 : ℚ), 2, 3, 4] : List ℚ).length % 2 = 1
              then s.getD (([(1 : ℚ), 2, 3, 4] : List ℚ).length / 2) 0
              else (s.getD (([(1 : ℚ), 2, 3, 4] : List ℚ).length / 2 - 1) 0
                + s.getD (([(1 : ℚ), 2, 3, 4] : List ℚ).length / 2) 0) / 2) :=
  median_claims [(1 : ℚ), 2, 3, 4] (by decide)

/-- C10: `median` does not mutate the array it is given: replayed against
the array heap, the caller's array holds the same elements in the same
order after the call (the sort is applied to the `slice()` copy), and the
value returned is `median` of that unchanged array. -/
theorem medianProg_frame (h : Heap) (r : ℕ) (hr : r < h.length) :
    heapGet (medianProg h r).2 r = heapGet h r
    ∧ (medianProg h r).1 = median (heapGet h r) := by
  by_cases hz : (heapGet h r).length = 0
  · simp [medianProg, hz, median]
  · have hr' : r < (h ++ [heapGet h r]).length := by
      rw [List.length_append]
      omega
    have hframe : heapGet (jsSortInPlace (jsSlice h r).1 (jsSlice h r).2) r
        = heapGet h r := by
      unfold jsSlice jsSortInPlace heapGet
      rw [List.getD_eq_getElem?_getD, List.getElem?_set_ne (by omega),
        List.getElem?_append_left hr, ← List.getD_eq_getElem?_getD]
    have hsorted : heapGet (jsSortInPlace (jsSlice h r).1 (jsSlice h r).2)
        (jsSlice h r).2 = jsSortAsc (heapGet h r) := by
      unfold jsSlice jsSortInPlace heapGet
      rw [List.getD_eq_getElem?_getD,
        List.getElem?_set_self (by rw [List.length_append]; simp),
        Option.getD_some]
      congr 1
      rw [List.getD_eq_getElem?_getD, List.getElem?_append_right (le_refl _)]
      simp
    constructor
    · simp only [medianProg, if_neg hz]
      exact hframe
    · simp only [medianProg, if_neg hz, hsorted, median, jsSortAsc_length]

/-- C10 witness: a two-array heap; `median` of the array `[3, 1]` behind
reference 0 leaves it as `[3, 1]` and returns its median. -/
theorem medianProg_frame_witness :
    heapGet (medianProg [[3, 1], [7]] 0).2 0 = heapGet [[3, 1], [7]] 0
    ∧ (medianProg [[3, 1], [7]] 0).1 = median (heapGet [[3, 1], [7]] 0) :=
  medianProg_frame [[3, 1], [7]] 0 (by decide)

/-- characterization of the scan for the leftmost match: `findFirst`
returns `some v` exactly when some start position matches with value `v`
and every earlier start position fails to match. -/
theorem findFirst_eq_some_iff {α : Type} (f : List Char → Option α)
    (cs : List Char) (v : α) :
    findFirst f cs = some v ↔
      ∃ i, i ≤ cs.length ∧ f (cs.drop i) = some v
        ∧ ∀ j, j < i → f (cs.drop j) = none := by
  induction cs with
  | nil =>
      simp only [findFirst, List.drop_nil, List.length_nil]
      constructor
      · intro hv
        exact ⟨0, le_refl 0, hv, fun j hj => absurd hj (Nat.not_lt_zero j)⟩
      · rintro ⟨i, -, hf, -⟩
        exact hf
  | cons c t ih =>
      simp only [findFirst]
      cases hf : f (c :: t) with
      | some w =>
          constructor
          · intro hv
            refine ⟨0, Nat.zero_le _, ?_, fun j hj => absurd hj (Nat.not_lt_zero j)⟩
            rw [List.drop_zero, hf]
            exact hv
          · rintro ⟨i, hi, hfi, hall⟩
            cases i with
            | zero =>
                rw [List.drop_zero, hf] at hfi
                exact hfi
            | succ n =>
                have h0 := hall 0 (Nat.succ_pos n)
                rw [List.drop_zero, hf] at h0
                cases h0
      | none =>
          rw [ih]
          constructor
          · rintro ⟨i, hi, hfi, hall⟩
            refine ⟨i + 1, Nat.succ_le_succ hi, ?_, ?_⟩
            · simpa using hfi
            · intro j hj
              cases j with
              | zero => simpa using hf
              | succ n => simpa using hall n (Nat.lt_of_succ_lt_succ hj)
          · rintro ⟨i, hi, hfi, hall⟩
            cases i with
            | zero =>
                rw [List.drop_zero, hf] at hfi
                cases hfi
            | succ n =>
                refine ⟨n, Nat.le_of_succ_le_succ hi, by simpa using hfi, ?_⟩
                intro j hj
                have := hall (j + 1) (Nat.succ_lt_succ hj)
                simpa using this

/-- C6: on the sample text the heuristics extract price 89.99 and unit
"10x10"; and in general the extracted price is the value of the leftmost
match of the dollar-amount pattern and the extracted unit is the leftmost
match of the NxM pattern with internal whitespace removed. -/
theorem extraction_first_match (cs : List Char) (v : ℚ) (u : String) :
    extractPrice ("Starting at $89.99 for a 10x10 unit".data) = some (8999 / 100)
    ∧ extractUnit ("Starting at $89.99 for a 10x10 unit".data) = some "10x10"
    ∧ (extractPrice cs = some v ↔
        ∃ i, i ≤ cs.length ∧ priceAt (cs.drop i) = some v
          ∧ ∀ j, j < i → priceAt (cs.drop j) = none)
    ∧ (extractUnit cs = some u ↔
        ∃ i, i ≤ cs.length
          ∧ (∃ tok, unitAt (cs.drop i) = some tok
              ∧ u = String.mk (stripSpaces tok))
          ∧ ∀ j, j < i → unitAt (cs.drop j) = none) := by
  refine ⟨?_, by decide, findFirst_eq_some_iff priceAt cs v, ?_⟩
  · have h1 : findFirst priceAt ("Starting at $89.99 for a 10x10 unit".data)
        = some (Rat.divInt 8999 100) := by decide
    unfold extractPrice
    rw [h1, Rat.divInt_eq_div]
    norm_num
  · unfold extractUnit
    constructor
    · intro hu
      obtain ⟨tok, htok, hmk⟩ := Option.map_eq_some'.mp hu
      obtain ⟨i, hi, hfi, hall⟩ := (findFirst_eq_some_iff unitAt cs tok).mp htok
      exact ⟨i, hi, ⟨tok, hfi, hmk.symm⟩, hall⟩
    · rintro ⟨i, hi, ⟨tok, hfi, hmk⟩, hall⟩
      have : findFirst unitAt cs = some tok :=
        (findFirst_eq_some_iff unitAt cs tok).mpr ⟨i, hi, hfi, hall⟩
      rw [this, hmk]
      rfl

/-- the accumulating candidate loop is `map` over the processed
candidates. -/
theorem scanLoop_eq (env : ScanEnv) (ps : List Place) (acc : List CompetitorRecord) :
    scanLoop env ps acc = acc ++ ps.map (processCandidate env) := by
  induction ps generalizing acc with
  | nil => simp [scanLoop]
  | cons p t ih => simp [scanLoop, ih]

theorem scanHandler_eq_map (env : ScanEnv) (places : List Place) :
    scanHandler env places = (places.take 20).map (processCandidate env) := by
  unfold scanHandler
  rw [scanLoop_eq]
  rfl

/-- C7: the scan output has exactly `min N 20` entries for `N` candidates
(the first 20 candidates), and the i-th output entry is the record produced
from the i-th input candidate — output order matches candidate order. -/
theorem scan_cap_and_order (env : ScanEnv) (places : List Place) :
    (scanHandler env places).length = min places.length 20
    ∧ ∀ i, i < (scanHandler env places).length →
        (scanHandler env places)[i]? = (places[i]?).map (processCandidate env) := by
  have hmap := scanHandler_eq_map env places
  constructor
  · rw [hmap, List.length_map, List.length_take, Nat.min_comm]
  · intro i hi
    rw [hmap] at hi ⊢
    rw [List.length_map, List.length_take] at hi
    rw [List.getElem?_map, List.getElem?_take_of_lt (by omega)]

/-- C7 witness: one candidate. -/
theorem scan_cap_and_order_witness :
    (scanHandler scrapeFailEnv [placeA]).length = min [placeA].length 20
    ∧ (scanHandler scrapeFailEnv [placeA])[0]?
        = ([placeA][0]?).map (processCandidate scrapeFailEnv) :=
  ⟨(scan_cap_and_order scrapeFailEnv [placeA]).1,
   (scan_cap_and_order scrapeFailEnv [placeA]).2 0 (by decide)⟩

/-- C2 at the failing input: when the second of two candidates' scrape
exhausts its retries, the scan still returns 2 entries and the first entry
is populated normally — but the entry of the failing candidate does not
carry any error field: its `error` is absent, the failure shows only as
null `unit`/`price` (the `{ error: 'scrape failed' }` object built by the
handler is dropped by the push). -/
theorem scan_scrape_failure_drops_error :
    (scanHandler scrapeFailEnv [placeA, placeB]).length = 2
    ∧ (scanHandler scrapeFailEnv [placeA, placeB])[0]? = some
        { name := "A Storage", address := "1 A St", place_id := some "pidA",
          website := some "http://a.example", distance := none,
          unit := some "10x10", price := some 100, source := some "website",
          availability := none, error := none }
    ∧ (scanHandler scrapeFailEnv [placeA, placeB])[1]? = some
        { name := "B Storage", address := "2 B St", place_id := some "pidB",
          website := some "http://b.example", distance := none,
          unit := none, price := none, source := some "website",
          availability := none, error := none } := by
  refine ⟨rfl, ?_, ?_⟩ <;> rfl

/-- C8: a candidate address matching the strict `lat,lng` pattern is parsed
directly with no geocoding request; any other address issues exactly one
geocoding request and resolution fails (with the `geocode failed` error)
exactly when the provider returns zero results; and a resolution failure
fails the whole scan request rather than producing a partial list. -/
theorem location_resolution_spec (genv : GeoEnv) (env : ScanEnv)
    (nearby : ℚ × ℚ → Except String (List Place)) (addr : String) :
    (isLatLngStr addr = true →
      resolveLatLng genv addr = (Except.ok (parseLatLngStr addr), 0))
    ∧ (isLatLngStr addr = false →
        (resolveLatLng genv addr).2 = 1
        ∧ ((resolveLatLng genv addr).1 = Except.error "geocode failed"
            ↔ numResults (genv.geocode addr) = 0))
    ∧ ((resolveLatLng genv addr).1 = Except.error "geocode failed" →
        scanRequest genv env nearby (some addr)
          = Except.error (500, "geocode failed")) := by
  refine ⟨?_, ?_, ?_⟩
  · intro ht
    unfold resolveLatLng
    rw [ht]
    rfl
  · intro hf
    unfold resolveLatLng
    rw [hf]
    cases hg : genv.geocode addr with
    | none => simp [numResults]
    | some l =>
        cases l with
        | nil => simp [numResults]
        | cons c t => simp [numResults]
  · intro herr
    simp only [scanRequest, herr]

/-- C8 witness: `"35.5,90.25"` is parsed directly with no external call;
`"nowhere"` issues one geocoding call against a zero-result provider and
fails the whole scan request. -/
theorem location_resolution_spec_witness :
    resolveLatLng demoGeoEnv "35.5,90.25"
      = (Except.ok (parseLatLngStr "35.5,90.25"), 0)
    ∧ (resolveLatLng demoGeoEnv "nowhere").2 = 1
    ∧ scanRequest demoGeoEnv scrapeFailEnv demoNearby (some "nowhere")
      = Except.error (500, "geocode failed") :=
  ⟨(location_resolution_spec demoGeoEnv scrapeFailEnv demoNearby "35.5,90.25").1
      (by decide),
   ((location_resolution_spec demoGeoEnv scrapeFailEnv demoNearby "nowhere").2.1
      (by decide)).1,
   (location_resolution_spec demoGeoEnv scrapeFailEnv demoNearby "nowhere").2.2
      (by rfl)⟩

end RateGenius
